import Mathlib

/-!
Verification of the SwiftPrintTrace repository: two C preprocessor shim
headers (Sources/CPrintTrace/shim.h and Sources/CPrintTrace/ios_shim.h)
that select, at compile time, between a framework-style import
<PrintTrace/PrintTraceAPI.h> and a plain include <PrintTraceAPI.h>
depending on the platform macros TARGET_OS_IOS, TARGET_OS_TV,
TARGET_OS_WATCH.

The embedding models the C preprocessor fragment the headers use:
a macro environment (association list from macro names to integer
values), conditional expressions built with ||, and the directives
#ifndef / #define / #if / #else / #include / #import. Each header file
is embedded as an AST that mirrors its text line by line, and a
recursive interpreter computes the macro definitions and the list of
emitted include directives.
-/

namespace SwiftPrintTrace

/-- Target of an include directive: either a framework-style `#import
<Framework/Header.h>` or a plain `#include <Header.h>`, each carrying the
literal path that appears in the source. -/
inductive IncludeTarget
  | frameworkImport (path : String)
  | plainInclude (path : String)
deriving DecidableEq, Repr

/-- Preprocessor conditional expressions, as used by the shims: macro
identifiers and the `||` operator. Per the C standard, an identifier that
is not defined as a macro evaluates to 0 in a `#if` expression; the
interpreter below implements that with `Option.getD 0`. -/
inductive PPExpr
  | var (name : String)
  | orE (a b : PPExpr)
deriving DecidableEq, Repr

/-- AST of the preprocessor directives appearing in the shim headers. -/
inductive HeaderAST
  | nilDir
  | seq (a b : HeaderAST)
  | includeDir (t : IncludeTarget)
  | defineDir (name : String)
  | ifndefDir (name : String) (body : HeaderAST)
  | ifDir (cond : PPExpr) (thenBody elseBody : HeaderAST)
deriving Repr

/-- The set of macro definitions in force, as an association list from
macro name to value; the first binding for a name wins. The build
configuration supplies the platform macros, and `#define` prepends. -/
abbrev MacroDefs := List (String × Int)

/-- Look a macro up in the definitions: `none` means the identifier is not
defined as a macro. -/
def lookupMacro (defs : MacroDefs) (n : String) : Option Int :=
  (defs.find? (fun p => p.1 = n)).map (fun p => p.2)

/-- Evaluate a `#if` conditional expression: an undefined identifier
evaluates to 0, and `||` yields 1 when either operand is nonzero, else 0
(C semantics). -/
def evalPPExpr (defs : MacroDefs) : PPExpr → Int
  | .var n => (lookupMacro defs n).getD 0
  | .orE a b => if evalPPExpr defs a ≠ 0 ∨ evalPPExpr defs b ≠ 0 then 1 else 0

/-- Run the preprocessor over a header AST: returns the macro definitions
after processing and the list of include directives emitted, in order.
`#define NAME` with an empty replacement is recorded with value 1; the
guards are only ever tested for definedness, so the value is immaterial. -/
def processAST : HeaderAST → MacroDefs → MacroDefs × List IncludeTarget
  | .nilDir, defs => (defs, [])
  | .seq a b, defs =>
      let r1 := processAST a defs
      let r2 := processAST b r1.1
      (r2.1, r1.2 ++ r2.2)
  | .includeDir t, defs => (defs, [t])
  | .defineDir n, defs => ((n, 1) :: defs, [])
  | .ifndefDir n body, defs =>
      if lookupMacro defs n = none then processAST body defs else (defs, [])
  | .ifDir c t e, defs =>
      if evalPPExpr defs c ≠ 0 then processAST t defs else processAST e defs

/-- The condition `TARGET_OS_IOS || TARGET_OS_TV || TARGET_OS_WATCH` from
line 4 of shim.h and line 5 of ios_shim.h (`||` associates to the left). -/
def appleMobileCond : PPExpr :=
  .orE (.orE (.var "TARGET_OS_IOS") (.var "TARGET_OS_TV")) (.var "TARGET_OS_WATCH")

/-- The framework-style import `#import <PrintTrace/PrintTraceAPI.h>`. -/
def frameworkHeader : IncludeTarget := .frameworkImport "PrintTrace/PrintTraceAPI.h"

/-- The plain include `#include <PrintTraceAPI.h>`. -/
def plainHeader : IncludeTarget := .plainInclude "PrintTraceAPI.h"

/-- Sources/CPrintTrace/shim.h, embedded directive by directive:
an include guard on CPRINTTRACE_SHIM_H around the platform conditional
that imports the framework header on Apple mobile targets and includes
the plain header otherwise. -/
def shim_h : HeaderAST :=
  .ifndefDir "CPRINTTRACE_SHIM_H"
    (.seq (.defineDir "CPRINTTRACE_SHIM_H")
      (.ifDir appleMobileCond (.includeDir frameworkHeader) (.includeDir plainHeader)))

/-- Sources/CPrintTrace/ios_shim.h, embedded directive by directive:
identical to shim.h except for its guard macro CPRINTTRACE_IOS_SHIM_H. -/
def ios_shim_h : HeaderAST :=
  .ifndefDir "CPRINTTRACE_IOS_SHIM_H"
    (.seq (.defineDir "CPRINTTRACE_IOS_SHIM_H")
      (.ifDir appleMobileCond (.includeDir frameworkHeader) (.includeDir plainHeader)))

/-- The platform flag configuration supplied by the build environment:
for each of the three target macros, `none` when the macro is not defined
and `some v` when it is defined with value `v`. -/
structure PlatformFlags where
  TARGET_OS_IOS : Option Int
  TARGET_OS_TV : Option Int
  TARGET_OS_WATCH : Option Int
deriving DecidableEq, Repr

/-- The macro definitions contributed by one flag. -/
def flagDefs (n : String) : Option Int → MacroDefs
  | some v => [(n, v)]
  | none => []

/-- The macro environment a build configuration supplies to the
preprocessor. -/
def PlatformFlags.env (f : PlatformFlags) : MacroDefs :=
  flagDefs "TARGET_OS_IOS" f.TARGET_OS_IOS ++
    flagDefs "TARGET_OS_TV" f.TARGET_OS_TV ++
      flagDefs "TARGET_OS_WATCH" f.TARGET_OS_WATCH

/-- A flag counts as set when it is defined with a nonzero value; an
undefined flag evaluates to 0 and so does not count (C `#if` semantics). -/
def truthy (o : Option Int) : Bool := decide (o.getD 0 ≠ 0)

/-- The spec's conceptual predicate: isAppleMobilePlatform = iOS || tvOS ||
watchOS, i.e. at least one of the three target macros is set. -/
def PlatformFlags.isAppleMobilePlatform (f : PlatformFlags) : Bool :=
  truthy f.TARGET_OS_IOS || truthy f.TARGET_OS_TV || truthy f.TARGET_OS_WATCH

/-- The header location the conditional selects for a given flag
configuration. -/
def selectedTarget (f : PlatformFlags) : IncludeTarget :=
  if f.isAppleMobilePlatform then frameworkHeader else plainHeader

/-- The two header files of the repository. -/
inductive HeaderFile
  | shim
  | iosShim
deriving DecidableEq, Repr

/-- The AST of each header file. -/
def headerAST : HeaderFile → HeaderAST
  | .shim => shim_h
  | .iosShim => ios_shim_h

/-- The include-guard macro of each header file. -/
def guardOf : HeaderFile → String
  | .shim => "CPRINTTRACE_SHIM_H"
  | .iosShim => "CPRINTTRACE_IOS_SHIM_H"

/-- Process one header file, tagging each emitted include with the file it
came from. -/
def processHeaderFile (h : HeaderFile) (defs : MacroDefs) :
    MacroDefs × List (HeaderFile × IncludeTarget) :=
  let r := processAST (headerAST h) defs
  (r.1, r.2.map (fun t => (h, t)))

/-- Process a translation unit: a sequence of header inclusions,
threading the macro definitions through and concatenating the emitted
includes. -/
def processTU (defs : MacroDefs) : List HeaderFile → MacroDefs × List (HeaderFile × IncludeTarget)
  | [] => (defs, [])
  | h :: rest =>
      let r := processHeaderFile h defs
      let r2 := processTU r.1 rest
      (r2.1, r.2 ++ r2.2)

/-- Resolve a list of emitted includes against the headers available on
the search path: the first unavailable target aborts compilation with a
missing-file error naming that target. -/
def resolveIncludes (avail : IncludeTarget → Bool) :
    List IncludeTarget → Except IncludeTarget (List IncludeTarget)
  | [] => .ok []
  | t :: rest =>
      if avail t then
        match resolveIncludes avail rest with
        | .ok l => .ok (t :: l)
        | .error e => .error e
      else .error t

/-! ### Helper lemmas about the preprocessor model -/

lemma lookupMacro_nil (m : String) : lookupMacro [] m = none := rfl

lemma lookupMacro_cons (n : String) (v : Int) (m : String) (defs : MacroDefs) :
    lookupMacro ((n, v) :: defs) m = if n = m then some v else lookupMacro defs m := by
  by_cases hnm : n = m
  · subst hnm
    simp [lookupMacro, List.find?_cons_of_pos]
  · rw [if_neg hnm]
    unfold lookupMacro
    rw [List.find?_cons_of_neg]
    simp [hnm]

/-- The build-supplied lookups a given flag configuration induces. -/
def FlagsOk (f : PlatformFlags) (defs : MacroDefs) : Prop :=
  lookupMacro defs "TARGET_OS_IOS" = f.TARGET_OS_IOS ∧
    lookupMacro defs "TARGET_OS_TV" = f.TARGET_OS_TV ∧
      lookupMacro defs "TARGET_OS_WATCH" = f.TARGET_OS_WATCH

lemma flagsOk_env (f : PlatformFlags) : FlagsOk f f.env := by
  rcases f with ⟨i, t, w⟩
  cases i <;> cases t <;> cases w <;>
    simp [FlagsOk, PlatformFlags.env, flagDefs, lookupMacro_cons, lookupMacro_nil]

lemma lookupMacro_env_guard (f : PlatformFlags) (h : HeaderFile) :
    lookupMacro f.env (guardOf h) = none := by
  rcases f with ⟨i, t, w⟩
  cases h <;> cases i <;> cases t <;> cases w <;>
    simp [PlatformFlags.env, flagDefs, guardOf, lookupMacro_cons, lookupMacro_nil]

lemma flagsOk_cons_guard (f : PlatformFlags) (defs : MacroDefs) (h : HeaderFile)
    (hf : FlagsOk f defs) : FlagsOk f ((guardOf h, 1) :: defs) := by
  obtain ⟨h1, h2, h3⟩ := hf
  cases h <;> exact ⟨by simp [guardOf, lookupMacro_cons, h1],
    by simp [guardOf, lookupMacro_cons, h2], by simp [guardOf, lookupMacro_cons, h3]⟩

lemma lookupMacro_guard_other (h h' : HeaderFile) (hne : h ≠ h') (v : Int)
    (defs : MacroDefs) :
    lookupMacro ((guardOf h', v) :: defs) (guardOf h) = lookupMacro defs (guardOf h) := by
  cases h <;> cases h' <;> simp_all [guardOf, lookupMacro_cons]

lemma evalPPExpr_appleMobileCond (f : PlatformFlags) (defs : MacroDefs)
    (hf : FlagsOk f defs) :
    (evalPPExpr defs appleMobileCond ≠ 0) ↔ f.isAppleMobilePlatform = true := by
  obtain ⟨h1, h2, h3⟩ := hf
  simp only [evalPPExpr, appleMobileCond, h1, h2, h3]
  by_cases hi : f.TARGET_OS_IOS.getD 0 ≠ 0 <;>
    by_cases ht : f.TARGET_OS_TV.getD 0 ≠ 0 <;>
      by_cases hw : f.TARGET_OS_WATCH.getD 0 ≠ 0 <;>
        simp [PlatformFlags.isAppleMobilePlatform, truthy, hi, ht, hw]

lemma processAST_header_run (h : HeaderFile) (f : PlatformFlags) (defs : MacroDefs)
    (hf : FlagsOk f defs) (hg : lookupMacro defs (guardOf h) = none) :
    processAST (headerAST h) defs = ((guardOf h, 1) :: defs, [selectedTarget f]) := by
  have hok : FlagsOk f ((guardOf h, 1) :: defs) := flagsOk_cons_guard f defs h hf
  have hcond := evalPPExpr_appleMobileCond f ((guardOf h, 1) :: defs) hok
  by_cases hm : f.isAppleMobilePlatform = true
  · have hne : evalPPExpr ((guardOf h, 1) :: defs) appleMobileCond ≠ 0 := hcond.mpr hm
    cases h <;>
      simp_all [headerAST, shim_h, ios_shim_h, guardOf, processAST, selectedTarget]
  · have hz : ¬ evalPPExpr ((guardOf h, 1) :: defs) appleMobileCond ≠ 0 :=
      fun hc => hm (hcond.mp hc)
    cases h <;>
      simp_all [headerAST, shim_h, ios_shim_h, guardOf, processAST, selectedTarget]

lemma processAST_header_guarded (h : HeaderFile) (defs : MacroDefs)
    (hg : lookupMacro defs (guardOf h) ≠ none) :
    processAST (headerAST h) defs = (defs, []) := by
  cases h <;> simp_all [headerAST, shim_h, ios_shim_h, guardOf, processAST]

lemma processAST_shim_env (h : HeaderFile) (f : PlatformFlags) :
    processAST (headerAST h) f.env = ((guardOf h, 1) :: f.env, [selectedTarget f]) :=
  processAST_header_run h f f.env (flagsOk_env f) (lookupMacro_env_guard f h)

lemma processTU_replicate_guarded (h : HeaderFile) (n : Nat) (defs : MacroDefs)
    (hg : lookupMacro defs (guardOf h) ≠ none) :
    processTU defs (List.replicate n h) = (defs, []) := by
  induction n with
  | zero => simp [processTU]
  | succ k ih =>
      simp [List.replicate, processTU, processHeaderFile,
        processAST_header_guarded h defs hg, ih]

lemma processTU_filter (h₀ : HeaderFile) (f : PlatformFlags) :
    ∀ (l : List HeaderFile) (defs : MacroDefs), FlagsOk f defs →
      ((processTU defs l).2.filter (fun p => p.1 = h₀)) =
        if h₀ ∈ l ∧ lookupMacro defs (guardOf h₀) = none
        then [(h₀, selectedTarget f)] else [] := by
  intro l
  induction l with
  | nil => intro defs hf; simp [processTU]
  | cons h rest ih =>
      intro defs hf
      by_cases hg : lookupMacro defs (guardOf h) = none
      · have hrun := processAST_header_run h f defs hf hg
        have hok := flagsOk_cons_guard f defs h hf
        have ihr := ih ((guardOf h, 1) :: defs) hok
        by_cases heq : h = h₀
        · subst heq
          have hg' : lookupMacro ((guardOf h, 1) :: defs) (guardOf h) = some 1 := by
            simp [lookupMacro_cons]
          simp [processTU, processHeaderFile, hrun, ihr, hg', hg]
        · have hne : ¬ h₀ = h := fun e => heq e.symm
          have hl : lookupMacro ((guardOf h, 1) :: defs) (guardOf h₀) =
              lookupMacro defs (guardOf h₀) :=
            lookupMacro_guard_other h₀ h hne 1 defs
          rw [hl] at ihr
          simp [processTU, processHeaderFile, hrun, ihr, heq, hne]
      · have hrun := processAST_header_guarded h defs hg
        have ihr := ih defs hf
        by_cases heq : h = h₀
        · subst heq
          simp [processTU, processHeaderFile, hrun, ihr, hg]
        · have hne : ¬ h₀ = h := fun e => heq e.symm
          simp [processTU, processHeaderFile, hrun, ihr, hne]

/-! ### Claim theorems -/

/-- C1: for every platform flag configuration, shim.h resolves to the
framework-style import <PrintTrace/PrintTraceAPI.h> exactly when at least
one of TARGET_OS_IOS, TARGET_OS_TV, TARGET_OS_WATCH is set
(isAppleMobilePlatform = iOS || tvOS || watchOS), and to the plain
include <PrintTraceAPI.h> otherwise. -/
theorem shim_framework_iff_apple_mobile (f : PlatformFlags) :
    ((processAST shim_h f.env).2 = [frameworkHeader] ↔ f.isAppleMobilePlatform = true) ∧
      ((processAST shim_h f.env).2 = [plainHeader] ↔ f.isAppleMobilePlatform = false) := by
  have h := processAST_shim_env .shim f
  simp only [headerAST] at h
  rw [h]
  by_cases hm : f.isAppleMobilePlatform = true <;>
    simp [selectedTarget, hm, frameworkHeader, plainHeader]

/-- C2: the two shims implement the same selector contract: for every
platform flag configuration, shim.h and ios_shim.h emit the same include
directives, hence resolve to the same header location. -/
theorem shim_ios_shim_same_selection (f : PlatformFlags) :
    (processAST shim_h f.env).2 = (processAST ios_shim_h f.env).2 := by
  have h1 := processAST_shim_env .shim f
  have h2 := processAST_shim_env .iosShim f
  simp only [headerAST] at h1 h2
  rw [h1, h2]

/-- C3: for every platform flag configuration and either shim, exactly one
of the two include branches is active: the emitted includes are either the
framework import alone or the plain include alone, never both and never
neither. -/
theorem shim_branches_exclusive_exhaustive (h : HeaderFile) (f : PlatformFlags) :
    Xor' ((processAST (headerAST h) f.env).2 = [frameworkHeader])
      ((processAST (headerAST h) f.env).2 = [plainHeader]) := by
  rw [processAST_shim_env h f]
  by_cases hm : f.isAppleMobilePlatform = true <;>
    simp [Xor', selectedTarget, hm, frameworkHeader, plainHeader]

/-- C4: when the platform flags indicate an Apple-mobile target and the
framework header is absent from the search path, resolution fails with a
missing-file error on the framework header, and the plain include never
appears among the emitted directives: no silent fallback occurs. -/
theorem shim_no_fallback_missing_framework (f : PlatformFlags)
    (avail : IncludeTarget → Bool) (hm : f.isAppleMobilePlatform = true)
    (hav : avail frameworkHeader = false) :
    resolveIncludes avail (processAST shim_h f.env).2 = .error frameworkHeader ∧
      plainHeader ∉ (processAST shim_h f.env).2 := by
  have h := processAST_shim_env .shim f
  simp only [headerAST] at h
  rw [h]
  refine ⟨?_, ?_⟩
  · simp [selectedTarget, hm, resolveIncludes, hav]
  · simp [selectedTarget, hm, frameworkHeader, plainHeader]

/-- Witness for C4: on an iOS configuration with no headers available,
resolving shim.h's output yields a missing-file error on the framework
header and the plain header was never emitted. -/
theorem shim_no_fallback_missing_framework_witness :
    resolveIncludes (fun _ => false)
        (processAST shim_h (PlatformFlags.mk (some 1) none none).env).2 =
      .error frameworkHeader ∧
      plainHeader ∉ (processAST shim_h (PlatformFlags.mk (some 1) none none).env).2 :=
  shim_no_fallback_missing_framework (PlatformFlags.mk (some 1) none none)
    (fun _ => false) (by decide) rfl

/-- C5: header selection is a pure, deterministic function of the platform
flag set with exactly two possible outputs: evaluations over identical
flag sets give identical results, the emitted include is either the
framework import or the plain include, and the only other effect is
defining the guard macro. -/
theorem header_selection_pure_deterministic (f₁ f₂ : PlatformFlags)
    (henv : f₁.env = f₂.env) :
    processAST shim_h f₁.env = processAST shim_h f₂.env ∧
      ((processAST shim_h f₁.env).2 = [frameworkHeader] ∨
        (processAST shim_h f₁.env).2 = [plainHeader]) ∧
      (processAST shim_h f₁.env).1 = ("CPRINTTRACE_SHIM_H", 1) :: f₁.env := by
  have h := processAST_shim_env .shim f₁
  simp only [headerAST, guardOf] at h
  refine ⟨by rw [henv], ?_, by rw [h]⟩
  rw [h]
  by_cases hm : f₁.isAppleMobilePlatform = true <;> simp [selectedTarget, hm]

/-- Witness for C5: instantiated on an iOS configuration compared with
itself. -/
theorem header_selection_pure_deterministic_witness :
    processAST shim_h (PlatformFlags.mk (some 1) none none).env =
        processAST shim_h (PlatformFlags.mk (some 1) none none).env ∧
      ((processAST shim_h (PlatformFlags.mk (some 1) none none).env).2 =
          [frameworkHeader] ∨
        (processAST shim_h (PlatformFlags.mk (some 1) none none).env).2 =
          [plainHeader]) ∧
      (processAST shim_h (PlatformFlags.mk (some 1) none none).env).1 =
        ("CPRINTTRACE_SHIM_H", 1) :: (PlatformFlags.mk (some 1) none none).env :=
  header_selection_pure_deterministic (PlatformFlags.mk (some 1) none none)
    (PlatformFlags.mk (some 1) none none) rfl

/-- C6: inclusion of either shim is idempotent within a translation unit:
for every platform flag configuration, including the header n+1 times
emits the same include directives as including it exactly once, because
the include guard makes every inclusion after the first a no-op. -/
theorem shim_inclusion_idempotent (h : HeaderFile) (f : PlatformFlags) (n : Nat) :
    (processTU f.env (List.replicate (n + 1) h)).2 = (processTU f.env [h]).2 := by
  have hrun := processAST_shim_env h f
  have hg : lookupMacro ((guardOf h, 1) :: f.env) (guardOf h) ≠ none := by
    simp [lookupMacro_cons]
  simp [List.replicate, processTU, processHeaderFile, hrun,
    processTU_replicate_guarded h n ((guardOf h, 1) :: f.env) hg]

/-- C7: the resolved include path is a function of the platform flags
alone and is not constant across the two platform classes: configurations
on opposite sides of isAppleMobilePlatform resolve to different header
locations. -/
theorem selection_differs_across_platform_classes (f₁ f₂ : PlatformFlags)
    (h₁ : f₁.isAppleMobilePlatform = true) (h₂ : f₂.isAppleMobilePlatform = false) :
    (processAST shim_h f₁.env).2 ≠ (processAST shim_h f₂.env).2 := by
  have e1 := processAST_shim_env .shim f₁
  have e2 := processAST_shim_env .shim f₂
  simp only [headerAST] at e1 e2
  rw [e1, e2]
  simp [selectedTarget, h₁, h₂, frameworkHeader, plainHeader]

/-- Witness for C7: an iOS configuration and the empty configuration
resolve to different header locations. -/
theorem selection_differs_across_platform_classes_witness :
    (processAST shim_h (PlatformFlags.mk (some 1) none none).env).2 ≠
      (processAST shim_h (PlatformFlags.mk none none none).env).2 :=
  selection_differs_across_platform_classes (PlatformFlags.mk (some 1) none none)
    (PlatformFlags.mk none none none) (by decide) (by decide)

/-- C8: the shim introduces no symbols of its own: after including either
shim on a clean build environment, the macro definitions gained are
exactly the shim's guard macro, and the declarations visible are exactly
those of the one underlying PrintTrace API header the active branch
includes, for any assignment of declarations to headers. -/
theorem shim_introduces_no_extra_symbols (h : HeaderFile) (f : PlatformFlags) :
    (processAST (headerAST h) f.env).1 = (guardOf h, 1) :: f.env ∧
      ∀ declsOf : IncludeTarget → List String,
        ((processAST (headerAST h) f.env).2.flatMap declsOf) =
          declsOf (selectedTarget f) := by
  rw [processAST_shim_env h f]
  exact ⟨rfl, fun declsOf => by simp⟩

/-- C9: when none of TARGET_OS_IOS, TARGET_OS_TV, TARGET_OS_WATCH is
defined in the build configuration, both shims take the plain-include
branch: the plain include <PrintTraceAPI.h> is the default selection. -/
theorem undefined_flags_default_plain_include :
    (processAST shim_h (PlatformFlags.mk none none none).env).2 = [plainHeader] ∧
      (processAST ios_shim_h (PlatformFlags.mk none none none).env).2 = [plainHeader] := by
  constructor <;> rfl

/-- C10: the two shims use distinct include-guard macros, so each shim's
selection is performed independently on its own first inclusion: in any
translation unit, for every order of inclusion and every platform flag
configuration, each header file contributes exactly one include directive
(its selection) when it occurs at all, and none otherwise. -/
theorem distinct_guards_independent_inclusion :
    guardOf .shim ≠ guardOf .iosShim ∧
      ∀ (f : PlatformFlags) (l : List HeaderFile) (h₀ : HeaderFile),
        ((processTU f.env l).2.filter (fun p => p.1 = h₀)) =
          if h₀ ∈ l then [(h₀, selectedTarget f)] else [] := by
  refine ⟨by simp [guardOf], ?_⟩
  intro f l h₀
  rw [processTU_filter h₀ f l f.env (flagsOk_env f)]
  simp [lookupMacro_env_guard f h₀]

end SwiftPrintTrace
